import Mathlib

/-!
Verification of the value-to-visual-encoding core of the carte_animee map
script: the square-root symbol-size scale, the logarithmic line-width scale
(with JavaScript float semantics for the degenerate division), the
zoom-driven render-mode selector, and the two render passes (detailed and
k-means-aggregated), shallowly embedded from src/script.js.
-/

namespace CarteAnimee

/-- Geometry of a GeoJSON feature: a Point with coordinates [lon, lat], or a
geometry of any other type.  `f.geometry` itself may be null or absent, which
the embedding renders as `Option Geom`. -/
inductive Geom
  | point (lon lat : ℚ)
  | other
deriving DecidableEq

/-- The value found under the `total_disembarked` property key, before the
script coerces it with `Number(...)`: the key may be missing, hold `null`,
the empty string, a numeric literal, a numeric string, or a non-numeric
string. -/
inductive VolProp
  | missing
  | null
  | emptyStr
  | numLit (q : ℚ)
  | numStr (q : ℚ)
  | otherStr
deriving DecidableEq

/-- JavaScript's `Number(...)` coercion on a `total_disembarked` property
value: `none` stands for NaN (missing key or non-numeric text), `some q` for
the finite number q (`Number(null)` and `Number("")` are 0). -/
def toNumber : VolProp → Option ℚ
  | .missing => none
  | .null => some 0
  | .emptyStr => some 0
  | .numLit q => some q
  | .numStr q => some q
  | .otherStr => none

/-- One feature of disembarkations_america.geojson as the script reads it:
its geometry, its `total_disembarked` property and its `Principa_1` name. -/
structure Feature where
  geom : Option Geom
  volume : VolProp
  name : Option String
deriving DecidableEq

/-- `Number(f.properties.total_disembarked) || 0` as drawClustered computes
each member's contribution to a cluster total: NaN becomes 0. -/
def numOrZero (f : Feature) : ℚ :=
  match toNumber f.volume with
  | none => 0
  | some q => q

/-- The validity check drawDetailed applies per record: geometry present and
of type Point, and a `total_disembarked` that does not coerce to NaN. -/
def isValidRecord (f : Feature) : Bool :=
  (match f.geom with
   | some (Geom.point _ _) => true
   | _ => false) && (toNumber f.volume).isSome

/-- createSizeScale from src/script.js lines 4-13: the returned closure maps
an absent value (`none`, JavaScript undefined/NaN) or a value ≤ 0 to
minRadius, and a positive value v to
minRadius + (maxRadius - minRadius) * (sqrt v / sqrt (maxValue || 1)).
The call sites use minRadius = 4 and maxRadius = 25. -/
noncomputable def createSizeScale (maxValue minRadius maxRadius : ℝ) :
    Option ℝ → ℝ :=
  let maxRoot := Real.sqrt (if maxValue = 0 then 1 else maxValue)
  fun value =>
    match value with
    | none => minRadius
    | some v =>
      if v ≤ 0 then minRadius
      else minRadius + (maxRadius - minRadius) * (Real.sqrt v / maxRoot)

/-- A JavaScript double as the line-width computation can produce it: NaN,
an infinity, or a finite real. -/
inductive JsVal
  | nan
  | posInf
  | negInf
  | val (x : ℝ)

/-- JavaScript float division of finite a by finite b: 0/0 is NaN, a/0 for
a ≠ 0 is a signed infinity, otherwise the real quotient. -/
noncomputable def jsDiv (a b : ℝ) : JsVal :=
  if b = 0 then
    if a = 0 then .nan else if 0 < a then .posInf else .negInf
  else .val (a / b)

/-- `Math.min(1, x)` on the extended values: NaN propagates. -/
noncomputable def jsMinOne : JsVal → JsVal
  | .nan => .nan
  | .posInf => .val 1
  | .negInf => .negInf
  | .val x => .val (min 1 x)

/-- `Math.max(0, x)` on the extended values: NaN propagates. -/
noncomputable def jsMaxZero : JsVal → JsVal
  | .nan => .nan
  | .posInf => .posInf
  | .negInf => .val 0
  | .val x => .val (max 0 x)

/-- `1 + r * 9` on the extended values: NaN propagates, infinities keep
their sign. -/
noncomputable def jsWidth : JsVal → JsVal
  | .nan => .nan
  | .posInf => .posInf
  | .negInf => .negInf
  | .val r => .val (1 + r * 9)

/-- lineWidthFromTotal from src/script.js lines 62-68, reading the scale
state minLog = log10 minPositive and maxLog = log10 maxValue set by
initScales: an absent total (`none`) or a total ≤ 0 yields width 1;
otherwise ratio = (log10 total - minLog) / (maxLog - minLog) is computed
with JavaScript float semantics, clamped by Math.max(0, Math.min(1, ratio)),
and the width is 1 + ratio * 9. -/
noncomputable def lineWidthFromTotal (minLog maxLog : ℝ) : Option ℝ → JsVal
  | none => .val 1
  | some total =>
    if total ≤ 0 then .val 1
    else
      jsWidth (jsMaxZero (jsMinOne
        (jsDiv (Real.logb 10 total - minLog) (maxLog - minLog))))

/-- The rendering mode updateMapForZoom dispatches to: detailed, or
aggregated into a given number of k-means clusters. -/
inductive RenderMode
  | detailed
  | aggregated (clusterCount : ℕ)
deriving DecidableEq

/-- updateMapForZoom from src/script.js lines 228-237, as the pure mode
selection it performs: zoom ≥ 5 draws detailed, 3 ≤ zoom < 5 draws 20
clusters, zoom < 3 draws 5 clusters. -/
def updateMapForZoom (z : ℚ) : RenderMode :=
  if 5 ≤ z then .detailed
  else if 3 ≤ z then .aggregated 20
  else .aggregated 5

/-- One circle marker added to portsLayer: its latLng position and radius. -/
structure Symbol where
  pos : ℚ × ℚ
  radius : ℝ

/-- One polyline added to flowsLayer: endpoints and stroke weight. -/
structure FlowLine where
  src : ℚ × ℚ
  dst : ℚ × ℚ
  weight : JsVal

/-- The two Leaflet layer groups the script mutates: portsLayer and
flowsLayer, as the lists of shapes they hold. -/
structure Layers where
  ports : List Symbol
  flows : List FlowLine

/-- `portsLayer.clearLayers(); flowsLayer.clearLayers()`: whatever the
layers held, both become empty. -/
def clearLayers (_prev : Layers) : Layers := ⟨[], []⟩

/-- drawDetailed from src/script.js lines 73-125: clear both layers, then
for each feature with Point geometry and a non-NaN total, add one circle of
radius sizeScale(total) at its latLng and one flow line from Ouidah of
weight lineWidthFromTotal(total); other features are skipped. -/
noncomputable def drawDetailed (minLog maxLog maxValue : ℝ)
    (ouidahLatLng : ℚ × ℚ) (portsFeatures : List Feature)
    (prev : Layers) : Layers :=
  portsFeatures.foldl (fun acc f =>
    match f.geom with
    | some (Geom.point lon lat) =>
      match toNumber f.volume with
      | none => acc
      | some total =>
        let latLng : ℚ × ℚ := (lat, lon)
        let radius := createSizeScale maxValue 4 25 (some (total : ℝ))
        let weight := lineWidthFromTotal minLog maxLog (some (total : ℝ))
        ⟨acc.ports ++ [⟨latLng, radius⟩],
         acc.flows ++ [⟨ouidahLatLng, latLng, weight⟩]⟩
    | _ => acc) (clearLayers prev)

/-- The distinct cluster identifiers of the assignment
turf.clustersKmeans wrote into the features, in encounter order: the keys
of the `clusters` dictionary drawClustered builds. -/
def groupClusters (assigned : List (Feature × ℕ)) : List ℕ :=
  (assigned.map Prod.snd).dedup

/-- `clusters[cid].features`: every feature the clusterer assigned to cid,
with no validity filtering. -/
def clusterFeatures (assigned : List (Feature × ℕ)) (cid : ℕ) : List Feature :=
  (assigned.filter (fun p => p.2 == cid)).map Prod.fst

/-- `clusters[cid].total`: the accumulated
`Number(f.properties.total_disembarked) || 0` over the members of cid. -/
def clusterTotal (assigned : List (Feature × ℕ)) (cid : ℕ) : ℚ :=
  ((assigned.filter (fun p => p.2 == cid)).map (fun p => numOrZero p.1)).sum

/-- `nbPorts`: the member count drawClustered reports in the cluster
popup. -/
def nbPorts (assigned : List (Feature × ℕ)) (cid : ℕ) : ℕ :=
  (clusterFeatures assigned cid).length

/-- The sum, over every cluster drawClustered iterates, of that cluster's
aggregate total. -/
def clustersTotalSum (assigned : List (Feature × ℕ)) : ℚ :=
  ((groupClusters assigned).map (fun cid => clusterTotal assigned cid)).sum

/-- The sum of the volumes of the records that pass drawDetailed's validity
check (Point geometry and parseable volume). -/
def validVolumesSum (feats : List Feature) : ℚ :=
  ((feats.filter isValidRecord).map numOrZero).sum

/-- The sum of the parseable volumes: every record whose
`total_disembarked` coerces to a number contributes it, geometry
notwithstanding. -/
def parseableVolumesSum (feats : List Feature) : ℚ :=
  ((feats.filter (fun f => (toNumber f.volume).isSome)).map numOrZero).sum

/-- drawClustered from src/script.js lines 128-225: clear both layers, hand
the whole feature list to the external k-means clusterer (modelled by the
`assigned` cluster identifiers it writes), group by identifier, and for
each cluster add one circle at the centroid (an external turf.centroid
computation, modelled by `centroidOf`, returning [lon, lat]) of radius
sizeScale(cluster total) and one flow line from Ouidah of weight
lineWidthFromTotal(cluster total). -/
noncomputable def drawClustered (minLog maxLog maxValue : ℝ)
    (ouidahLatLng : ℚ × ℚ) (centroidOf : List Feature → ℚ × ℚ)
    (assigned : List (Feature × ℕ)) (prev : Layers) : Layers :=
  (groupClusters assigned).foldl (fun acc cid =>
    let members := clusterFeatures assigned cid
    let total := clusterTotal assigned cid
    let c := centroidOf members
    let latLng : ℚ × ℚ := (c.2, c.1)
    let radius := createSizeScale maxValue 4 25 (some (total : ℝ))
    let weight := lineWidthFromTotal minLog maxLog (some (total : ℝ))
    ⟨acc.ports ++ [⟨latLng, radius⟩],
     acc.flows ++ [⟨ouidahLatLng, latLng, weight⟩]⟩) (clearLayers prev)

/-- A record with a parseable volume of 7 but no geometry at all: it fails
drawDetailed's validity check yet drawClustered counts its volume. -/
def fNoGeom : Feature := ⟨none, .numLit 7, none⟩

/-- A record passing the validity check, with volume 5. -/
def fGood : Feature := ⟨some (.point 1 2), .numLit 5, some "A"⟩

/-- A record with Point geometry whose volume is non-numeric text: it fails
the validity check, yet drawClustered keeps it as a cluster member. -/
def fBadVol : Feature := ⟨some (.point 3 4), .otherStr, none⟩

theorem createSizeScale_nonpos (maxValue minRadius maxRadius v : ℝ)
    (hv : v ≤ 0) :
    createSizeScale maxValue minRadius maxRadius (some v) = minRadius := by
  simp [createSizeScale, hv]

theorem createSizeScale_pos (maxValue minRadius maxRadius v : ℝ)
    (hM : maxValue ≠ 0) (hv : 0 < v) :
    createSizeScale maxValue minRadius maxRadius (some v)
      = minRadius + (maxRadius - minRadius) * (Real.sqrt v / Real.sqrt maxValue) := by
  simp [createSizeScale, not_le.mpr hv, hM]

/-- C1: For maxValue > 0, the closure createSizeScale(maxValue) with the
default radii 4 and 25 returns 4 on an undefined value and on every value
≤ 0, returns 4 + (25 - 4) * sqrt(value)/sqrt(maxValue) on every positive
value, is monotonically non-decreasing on [0, maxValue], and maps 0 to 4
and maxValue to 25. -/
theorem createSizeScale_spec (maxValue : ℝ) (hM : 0 < maxValue) :
    createSizeScale maxValue 4 25 none = 4
    ∧ (∀ v : ℝ, v ≤ 0 → createSizeScale maxValue 4 25 (some v) = 4)
    ∧ (∀ v : ℝ, 0 < v →
        createSizeScale maxValue 4 25 (some v)
          = 4 + (25 - 4) * (Real.sqrt v / Real.sqrt maxValue))
    ∧ (∀ v w : ℝ, 0 ≤ v → v ≤ w → w ≤ maxValue →
        createSizeScale maxValue 4 25 (some v)
          ≤ createSizeScale maxValue 4 25 (some w))
    ∧ createSizeScale maxValue 4 25 (some 0) = 4
    ∧ createSizeScale maxValue 4 25 (some maxValue) = 25 := by
  have hM' : maxValue ≠ 0 := ne_of_gt hM
  have hroot : 0 < Real.sqrt maxValue := Real.sqrt_pos.mpr hM
  refine ⟨rfl, fun v hv => createSizeScale_nonpos _ _ _ _ hv,
    fun v hv => createSizeScale_pos _ _ _ _ hM' hv, ?_, ?_, ?_⟩
  · intro v w _ hvw hwM
    rcases le_or_lt v 0 with h0 | h0
    · rw [createSizeScale_nonpos _ _ _ _ h0]
      rcases le_or_lt w 0 with hw0 | hw0
      · rw [createSizeScale_nonpos _ _ _ _ hw0]
      · rw [createSizeScale_pos _ _ _ _ hM' hw0]
        have hpos : 0 ≤ (25 - 4 : ℝ) * (Real.sqrt w / Real.sqrt maxValue) := by
          positivity
        linarith
    · have hw0 : 0 < w := lt_of_lt_of_le h0 hvw
      rw [createSizeScale_pos _ _ _ _ hM' h0,
        createSizeScale_pos _ _ _ _ hM' hw0]
      have hs : Real.sqrt v ≤ Real.sqrt w := Real.sqrt_le_sqrt hvw
      gcongr
  · exact createSizeScale_nonpos _ _ _ 0 le_rfl
  · rw [createSizeScale_pos _ _ _ _ hM' hM, div_self (ne_of_gt hroot)]
    norm_num

/-- Witness for C1 at the concrete maximum 1. -/
theorem createSizeScale_spec_witness :
    (0 < (1:ℝ))
    ∧ (createSizeScale 1 4 25 none = 4
      ∧ (∀ v : ℝ, v ≤ 0 → createSizeScale 1 4 25 (some v) = 4)
      ∧ (∀ v : ℝ, 0 < v →
          createSizeScale 1 4 25 (some v)
            = 4 + (25 - 4) * (Real.sqrt v / Real.sqrt 1))
      ∧ (∀ v w : ℝ, 0 ≤ v → v ≤ w → w ≤ 1 →
          createSizeScale 1 4 25 (some v) ≤ createSizeScale 1 4 25 (some w))
      ∧ createSizeScale 1 4 25 (some 0) = 4
      ∧ createSizeScale 1 4 25 (some 1) = 25) :=
  ⟨by norm_num, createSizeScale_spec 1 (by norm_num)⟩

/-- C6 counterexample: with maxValue = 1, the value 4 (greater than
maxValue) is mapped to radius 46, well above maxRadius = 25: the returned
function has no upper clamp. -/
theorem createSizeScale_no_upper_clamp :
    createSizeScale 1 4 25 (some 4) = 46
    ∧ ¬ createSizeScale 1 4 25 (some 4) ≤ 25 := by
  have h4 : Real.sqrt 4 = 2 := by
    rw [show (4:ℝ) = 2 ^ 2 by norm_num, Real.sqrt_sq (by norm_num : (0:ℝ) ≤ 2)]
  have h : createSizeScale 1 4 25 (some 4) = 46 := by
    rw [createSizeScale_pos 1 4 25 4 (by norm_num) (by norm_num), h4,
      Real.sqrt_one]
    norm_num
  exact ⟨h, by rw [h]; norm_num⟩

/-- C6 amended: for maxValue > 0 the radius is clamped below by 4 on every
input, stays at most 25 for every value ≤ maxValue, but strictly exceeds 25
for every value above maxValue — there is no upper clamp. -/
theorem createSizeScale_clamp_amended (maxValue : ℝ) (hM : 0 < maxValue) :
    (∀ v : Option ℝ, 4 ≤ createSizeScale maxValue 4 25 v)
    ∧ (∀ x : ℝ, x ≤ maxValue → createSizeScale maxValue 4 25 (some x) ≤ 25)
    ∧ (∀ x : ℝ, maxValue < x → 25 < createSizeScale maxValue 4 25 (some x)) := by
  have hM' : maxValue ≠ 0 := ne_of_gt hM
  have hroot : 0 < Real.sqrt maxValue := Real.sqrt_pos.mpr hM
  refine ⟨?_, ?_, ?_⟩
  · intro v
    match v with
    | none => exact le_rfl
    | some x =>
      rcases le_or_lt x 0 with h0 | h0
      · rw [createSizeScale_nonpos _ _ _ _ h0]
      · rw [createSizeScale_pos _ _ _ _ hM' h0]
        have hpos : 0 ≤ (25 - 4 : ℝ) * (Real.sqrt x / Real.sqrt maxValue) := by
          positivity
        linarith
  · intro x hxM
    rcases le_or_lt x 0 with h0 | h0
    · rw [createSizeScale_nonpos _ _ _ _ h0]; norm_num
    · rw [createSizeScale_pos _ _ _ _ hM' h0]
      have hs : Real.sqrt x ≤ Real.sqrt maxValue := Real.sqrt_le_sqrt hxM
      have hr : Real.sqrt x / Real.sqrt maxValue ≤ 1 :=
        (div_le_one hroot).mpr hs
      nlinarith
  · intro x hMx
    have h0 : 0 < x := lt_trans hM hMx
    rw [createSizeScale_pos _ _ _ _ hM' h0]
    have hs : Real.sqrt maxValue < Real.sqrt x :=
      Real.sqrt_lt_sqrt (le_of_lt hM) hMx
    have hr : 1 < Real.sqrt x / Real.sqrt maxValue :=
      (one_lt_div hroot).mpr hs
    nlinarith

/-- Witness for the amended C6 at the concrete maximum 1. -/
theorem createSizeScale_clamp_amended_witness :
    (0 < (1:ℝ))
    ∧ ((∀ v : Option ℝ, 4 ≤ createSizeScale 1 4 25 v)
      ∧ (∀ x : ℝ, x ≤ 1 → createSizeScale 1 4 25 (some x) ≤ 25)
      ∧ (∀ x : ℝ, 1 < x → 25 < createSizeScale 1 4 25 (some x))) :=
  ⟨by norm_num, createSizeScale_clamp_amended 1 (by norm_num)⟩

theorem lineWidthFromTotal_nonpos (minLog maxLog t : ℝ) (ht : t ≤ 0) :
    lineWidthFromTotal minLog maxLog (some t) = .val 1 := by
  simp [lineWidthFromTotal, ht]

theorem lineWidthFromTotal_pos (minLog maxLog t : ℝ) (ht : 0 < t)
    (hd : maxLog - minLog ≠ 0) :
    lineWidthFromTotal minLog maxLog (some t)
      = .val (1 + max 0 (min 1
          ((Real.logb 10 t - minLog) / (maxLog - minLog))) * 9) := by
  simp [lineWidthFromTotal, not_le.mpr ht, jsDiv, hd, jsMinOne, jsMaxZero,
    jsWidth]

/-- C2: With scale state from 0 < minPositive < maxValue (minLog and maxLog
their base-10 logarithms), lineWidthFromTotal returns 1 on an undefined
total and on every total ≤ 0, returns
1 + 9 * clamp((log10 total - minLog) / (maxLog - minLog), 0, 1) on every
positive total, and on [minPositive, maxValue] is monotonically
non-decreasing with value 1 at minPositive and 10 at maxValue. -/
theorem lineWidthFromTotal_spec (m M : ℝ) (hm : 0 < m) (hmM : m < M) :
    lineWidthFromTotal (Real.logb 10 m) (Real.logb 10 M) none = .val 1
    ∧ (∀ t : ℝ, t ≤ 0 →
        lineWidthFromTotal (Real.logb 10 m) (Real.logb 10 M) (some t) = .val 1)
    ∧ (∀ t : ℝ, 0 < t →
        lineWidthFromTotal (Real.logb 10 m) (Real.logb 10 M) (some t)
          = .val (1 + 9 * max 0 (min 1
              ((Real.logb 10 t - Real.logb 10 m)
                / (Real.logb 10 M - Real.logb 10 m)))))
    ∧ (∀ t u : ℝ, m ≤ t → t ≤ u → u ≤ M →
        ∃ wt wu : ℝ,
          lineWidthFromTotal (Real.logb 10 m) (Real.logb 10 M) (some t) = .val wt
          ∧ lineWidthFromTotal (Real.logb 10 m) (Real.logb 10 M) (some u) = .val wu
          ∧ wt ≤ wu)
    ∧ lineWidthFromTotal (Real.logb 10 m) (Real.logb 10 M) (some m) = .val 1
    ∧ lineWidthFromTotal (Real.logb 10 m) (Real.logb 10 M) (some M) = .val 10 := by
  have hM0 : 0 < M := hm.trans hmM
  have hlog : Real.logb 10 m < Real.logb 10 M :=
    Real.logb_lt_logb (by norm_num) hm hmM
  have hdpos : 0 < Real.logb 10 M - Real.logb 10 m := sub_pos.mpr hlog
  have hd : Real.logb 10 M - Real.logb 10 m ≠ 0 := ne_of_gt hdpos
  refine ⟨rfl, fun t ht => lineWidthFromTotal_nonpos _ _ _ ht, ?_, ?_, ?_, ?_⟩
  · intro t ht
    rw [lineWidthFromTotal_pos _ _ _ ht hd]
    exact congrArg JsVal.val (by ring)
  · intro t u hmt htu huM
    have ht : 0 < t := lt_of_lt_of_le hm hmt
    have hu : 0 < u := lt_of_lt_of_le ht htu
    refine ⟨_, _, lineWidthFromTotal_pos _ _ _ ht hd,
      lineWidthFromTotal_pos _ _ _ hu hd, ?_⟩
    have hlt : Real.logb 10 t ≤ Real.logb 10 u :=
      Real.logb_le_logb_of_le (by norm_num) ht htu
    have hratio :
        (Real.logb 10 t - Real.logb 10 m)
            / (Real.logb 10 M - Real.logb 10 m)
          ≤ (Real.logb 10 u - Real.logb 10 m)
            / (Real.logb 10 M - Real.logb 10 m) := by
      apply (div_le_div_iff_of_pos_right hdpos).mpr
      linarith
    have hclamp := max_le_max (le_refl (0:ℝ)) (min_le_min (le_refl (1:ℝ)) hratio)
    linarith
  · rw [lineWidthFromTotal_pos _ _ _ hm hd, sub_self, zero_div]
    norm_num
  · rw [lineWidthFromTotal_pos _ _ _ hM0 hd, div_self hd]
    norm_num

/-- Witness for C2 at minPositive = 1, maxValue = 10. -/
theorem lineWidthFromTotal_spec_witness :
    (0 < (1:ℝ)) ∧ ((1:ℝ) < 10)
    ∧ (lineWidthFromTotal (Real.logb 10 1) (Real.logb 10 10) none = .val 1
      ∧ (∀ t : ℝ, t ≤ 0 →
          lineWidthFromTotal (Real.logb 10 1) (Real.logb 10 10) (some t) = .val 1)
      ∧ (∀ t : ℝ, 0 < t →
          lineWidthFromTotal (Real.logb 10 1) (Real.logb 10 10) (some t)
            = .val (1 + 9 * max 0 (min 1
                ((Real.logb 10 t - Real.logb 10 1)
                  / (Real.logb 10 10 - Real.logb 10 1)))))
      ∧ (∀ t u : ℝ, 1 ≤ t → t ≤ u → u ≤ 10 →
          ∃ wt wu : ℝ,
            lineWidthFromTotal (Real.logb 10 1) (Real.logb 10 10) (some t) = .val wt
            ∧ lineWidthFromTotal (Real.logb 10 1) (Real.logb 10 10) (some u) = .val wu
            ∧ wt ≤ wu)
      ∧ lineWidthFromTotal (Real.logb 10 1) (Real.logb 10 10) (some 1) = .val 1
      ∧ lineWidthFromTotal (Real.logb 10 1) (Real.logb 10 10) (some 10) = .val 10) :=
  ⟨by norm_num, by norm_num,
    lineWidthFromTotal_spec 1 10 (by norm_num) (by norm_num)⟩

/-- C10: Whenever minLog < maxLog comes from 0 < minPositive < maxValue,
lineWidthFromTotal returns a finite width in [1, 10] on every input,
undefined and out-of-range positive totals included: the clamp makes the
function total in the non-degenerate case. -/
theorem lineWidthFromTotal_range (m M : ℝ) (hm : 0 < m) (hmM : m < M) :
    ∀ total : Option ℝ, ∃ w : ℝ,
      lineWidthFromTotal (Real.logb 10 m) (Real.logb 10 M) total = .val w
      ∧ 1 ≤ w ∧ w ≤ 10 := by
  have hlog : Real.logb 10 m < Real.logb 10 M :=
    Real.logb_lt_logb (by norm_num) hm hmM
  have hd : Real.logb 10 M - Real.logb 10 m ≠ 0 := ne_of_gt (sub_pos.mpr hlog)
  intro total
  match total with
  | none => exact ⟨1, rfl, le_refl 1, by norm_num⟩
  | some t =>
    rcases le_or_lt t 0 with ht | ht
    · exact ⟨1, lineWidthFromTotal_nonpos _ _ _ ht, le_refl 1, by norm_num⟩
    · refine ⟨_, lineWidthFromTotal_pos _ _ _ ht hd, ?_, ?_⟩
      · have h0 : (0:ℝ) ≤ max 0 (min 1
            ((Real.logb 10 t - Real.logb 10 m)
              / (Real.logb 10 M - Real.logb 10 m))) := le_max_left _ _
        linarith
      · have h1 : max 0 (min 1
            ((Real.logb 10 t - Real.logb 10 m)
              / (Real.logb 10 M - Real.logb 10 m))) ≤ 1 :=
          max_le (by norm_num) (min_le_left _ _)
        linarith

/-- Witness for C10 at minPositive = 1, maxValue = 10. -/
theorem lineWidthFromTotal_range_witness :
    (0 < (1:ℝ)) ∧ ((1:ℝ) < 10)
    ∧ (∀ total : Option ℝ, ∃ w : ℝ,
        lineWidthFromTotal (Real.logb 10 1) (Real.logb 10 10) total = .val w
        ∧ 1 ≤ w ∧ w ≤ 10) :=
  ⟨by norm_num, by norm_num,
    lineWidthFromTotal_range 1 10 (by norm_num) (by norm_num)⟩

/-- C5: When minPositive equals maxValue, minLog equals maxLog and the
division in lineWidthFromTotal is an unguarded 0/0 at the common positive
value: the result is NaN, not a finite width, and in particular not a
number in [1, 10]. -/
theorem lineWidthFromTotal_degenerate (c : ℝ) (hc : 0 < c) :
    lineWidthFromTotal (Real.logb 10 c) (Real.logb 10 c) (some c) = .nan
    ∧ ∀ w : ℝ,
        lineWidthFromTotal (Real.logb 10 c) (Real.logb 10 c) (some c)
          ≠ .val w := by
  have h : lineWidthFromTotal (Real.logb 10 c) (Real.logb 10 c) (some c)
      = .nan := by
    simp [lineWidthFromTotal, not_le.mpr hc, jsDiv, sub_self, jsMinOne,
      jsMaxZero, jsWidth]
  refine ⟨h, ?_⟩
  intro w
  rw [h]
  simp

/-- Witness for C5 at the common value 1. -/
theorem lineWidthFromTotal_degenerate_witness :
    (0 < (1:ℝ))
    ∧ (lineWidthFromTotal (Real.logb 10 1) (Real.logb 10 1) (some 1) = .nan
      ∧ ∀ w : ℝ,
          lineWidthFromTotal (Real.logb 10 1) (Real.logb 10 1) (some 1)
            ≠ .val w) :=
  ⟨by norm_num, lineWidthFromTotal_degenerate 1 (by norm_num)⟩

/-- C3: Mode selection is a pure function of the zoom level with a
three-tier shape: zoom ≥ 5 (the high threshold) yields DETAILED,
3 ≤ zoom < 5 yields AGGREGATED with 20 clusters, zoom < 3 yields
AGGREGATED with 5 clusters; in particular zoom 2 gives 5 clusters, zoom 4
gives 20 clusters and zoom 6 gives the detailed view. -/
theorem updateMapForZoom_spec :
    (∀ z : ℚ,
      (5 ≤ z → updateMapForZoom z = .detailed)
      ∧ (3 ≤ z → z < 5 → updateMapForZoom z = .aggregated 20)
      ∧ (z < 3 → updateMapForZoom z = .aggregated 5))
    ∧ updateMapForZoom 2 = .aggregated 5
    ∧ updateMapForZoom 4 = .aggregated 20
    ∧ updateMapForZoom 6 = .detailed := by
  refine ⟨fun z => ⟨fun h5 => ?_, fun h3 h5 => ?_, fun h3 => ?_⟩, by decide, by decide, by decide⟩
  · simp [updateMapForZoom, h5]
  · simp [updateMapForZoom, not_le.mpr h5, h3]
  · simp [updateMapForZoom, not_le.mpr h3, not_le.mpr (h3.trans (by norm_num : (3:ℚ) < 5))]

theorem clusterTotal_cons (p : Feature × ℕ) (t : List (Feature × ℕ))
    (cid : ℕ) :
    clusterTotal (p :: t) cid
      = (if p.2 = cid then numOrZero p.1 else 0) + clusterTotal t cid := by
  by_cases h : p.2 = cid
  · simp [clusterTotal, List.filter_cons, h]
  · simp [clusterTotal, List.filter_cons, h]

theorem sum_map_ite_single (ids : List ℕ) (hnd : ids.Nodup) (c : ℕ)
    (hc : c ∈ ids) (v : ℚ) :
    (ids.map (fun cid => if c = cid then v else 0)).sum = v := by
  induction ids with
  | nil => cases hc
  | cons a t ih =>
    rw [List.map_cons, List.sum_cons]
    rcases List.mem_cons.mp hc with h | h
    · subst h
      rw [if_pos rfl]
      have hct : c ∉ t := (List.nodup_cons.mp hnd).1
      have hz : (t.map (fun cid => if c = cid then v else 0)).sum = 0 := by
        apply List.sum_eq_zero
        intro x hx
        rcases List.mem_map.mp hx with ⟨cid, hcid, rfl⟩
        exact if_neg (fun hh => hct (by rw [hh]; exact hcid))
      rw [hz, add_zero]
    · have ha : ¬ (c = a) := fun hh =>
        (List.nodup_cons.mp hnd).1 (by rw [← hh]; exact h)
      rw [if_neg ha, ih (List.nodup_cons.mp hnd).2 h, zero_add]

theorem sum_map_add_split {α : Type} (l : List α) (f g : α → ℚ) :
    (l.map (fun x => f x + g x)).sum = (l.map f).sum + (l.map g).sum := by
  induction l with
  | nil => simp
  | cons a t ih =>
    simp only [List.map_cons, List.sum_cons, ih]
    ring

theorem sum_clusterTotal_fiberwise (l : List (Feature × ℕ)) (ids : List ℕ)
    (hnd : ids.Nodup) (hmem : ∀ p ∈ l, p.2 ∈ ids) :
    (ids.map (fun cid => clusterTotal l cid)).sum
      = (l.map (fun p => numOrZero p.1)).sum := by
  induction l with
  | nil =>
    rw [List.map_nil, List.sum_nil]
    apply List.sum_eq_zero
    intro x hx
    rcases List.mem_map.mp hx with ⟨cid, _, rfl⟩
    rfl
  | cons p t ih =>
    have hfun : (fun cid => clusterTotal (p :: t) cid)
        = fun cid =>
            (if p.2 = cid then numOrZero p.1 else 0) + clusterTotal t cid :=
      funext (fun cid => clusterTotal_cons p t cid)
    rw [hfun, sum_map_add_split,
      sum_map_ite_single ids hnd p.2 (hmem p (List.mem_cons_self p t)) _,
      ih (fun q hq => hmem q (List.mem_cons_of_mem p hq)),
      List.map_cons, List.sum_cons]

theorem clustersTotalSum_eq_coerced_sum (assigned : List (Feature × ℕ)) :
    clustersTotalSum assigned = (assigned.map (fun p => numOrZero p.1)).sum := by
  have h := sum_clusterTotal_fiberwise assigned (groupClusters assigned)
    (List.nodup_dedup _)
    (fun p hp => List.mem_dedup.mpr (List.mem_map_of_mem _ hp))
  simpa [clustersTotalSum] using h

theorem sum_numOrZero_eq_parseable (feats : List Feature) :
    (feats.map numOrZero).sum = parseableVolumesSum feats := by
  induction feats with
  | nil => rfl
  | cons f t ih =>
    unfold parseableVolumesSum at ih ⊢
    rw [List.map_cons, List.sum_cons, List.filter_cons]
    cases hs : (toNumber f.volume).isSome with
    | true =>
      rw [if_pos rfl, List.map_cons, List.sum_cons, ih]
    | false =>
      have hnone : toNumber f.volume = none :=
        Option.not_isSome_iff_eq_none.mp (by simp [hs])
      have h0 : numOrZero f = 0 := by simp [numOrZero, hnone]
      rw [if_neg (by simp), h0, zero_add, ih]

/-- C4 counterexample: a single record with a parseable volume of 7 and no
point geometry — it fails validation, so the sum of valid input volumes is
0, yet the one cluster's aggregate volume is 7: the per-cluster totals do
not conserve the valid-record volume sum. -/
theorem aggregation_not_valid_sum :
    clustersTotalSum [(fNoGeom, 0)] = 7
    ∧ validVolumesSum [fNoGeom] = 0
    ∧ clustersTotalSum [(fNoGeom, 0)] ≠ validVolumesSum [fNoGeom] := by
  have h7 : clustersTotalSum [(fNoGeom, 0)] = 7 := by
    rw [clustersTotalSum_eq_coerced_sum]
    simp [numOrZero, toNumber, fNoGeom]
  have h0 : validVolumesSum [fNoGeom] = 0 := by
    simp [validVolumesSum, isValidRecord, fNoGeom, List.filter_cons]
  refine ⟨h7, h0, ?_⟩
  rw [h7, h0]
  norm_num

/-- C4 amended: the sum over all clusters of the per-cluster aggregate
volume equals the sum over all input records of their coerced volume
(`Number(v) || 0`), equivalently the sum of all parseable input volumes
regardless of geometry; it equals the sum of the valid input volumes
exactly when every record with a parseable volume also has point geometry. -/
theorem aggregation_conservation (assigned : List (Feature × ℕ)) :
    clustersTotalSum assigned = ((assigned.map Prod.fst).map numOrZero).sum
    ∧ clustersTotalSum assigned = parseableVolumesSum (assigned.map Prod.fst)
    ∧ ((∀ f ∈ assigned.map Prod.fst,
          (toNumber f.volume).isSome → isValidRecord f) →
        clustersTotalSum assigned = validVolumesSum (assigned.map Prod.fst)) := by
  have h1 : clustersTotalSum assigned
      = ((assigned.map Prod.fst).map numOrZero).sum := by
    rw [clustersTotalSum_eq_coerced_sum, List.map_map]
    rfl
  have h2 : clustersTotalSum assigned
      = parseableVolumesSum (assigned.map Prod.fst) := by
    rw [h1, sum_numOrZero_eq_parseable]
  refine ⟨h1, h2, ?_⟩
  intro hvalid
  have hfilter : (assigned.map Prod.fst).filter isValidRecord
      = (assigned.map Prod.fst).filter
          (fun f => (toNumber f.volume).isSome) := by
    apply List.filter_congr
    intro f hf
    by_cases hs : (toNumber f.volume).isSome
    · rw [hvalid f hf hs]
      simpa using hs
    · have hsf : (toNumber f.volume).isSome = false := by simpa using hs
      simp [isValidRecord, hsf]
  rw [h2, validVolumesSum, hfilter]
  rfl

/-- C7 counterexample: a record with Point geometry but a non-numeric
volume fails validation, yet the clustering step keeps it: it is a member
of its cluster, the member count is 2 (not 1), and only the summed volume
ignores it. -/
theorem clustering_keeps_invalid :
    isValidRecord fBadVol = false
    ∧ fBadVol ∈ clusterFeatures [(fGood, 0), (fBadVol, 0)] 0
    ∧ nbPorts [(fGood, 0), (fBadVol, 0)] 0 = 2
    ∧ clusterTotal [(fGood, 0), (fBadVol, 0)] 0 = 5 := by
  refine ⟨by decide, by decide, by decide, ?_⟩
  simp [clusterTotal, List.filter_cons, fGood, fBadVol, numOrZero, toNumber]

/-- C7 amended: drawClustered hands every record to the clusterer
unfiltered: each cluster's member list is exactly the features assigned to
its identifier (invalid ones included, so they count in nbPorts and feed
the centroid), and only the aggregate volume is insensitive to invalid
records — it equals the sum of the parseable member volumes. -/
theorem drawClustered_members_amended (assigned : List (Feature × ℕ))
    (cid : ℕ) :
    clusterFeatures assigned cid
      = (assigned.filter (fun p => p.2 == cid)).map Prod.fst
    ∧ nbPorts assigned cid = (assigned.filter (fun p => p.2 == cid)).length
    ∧ (∀ p ∈ assigned, p.2 = cid → p.1 ∈ clusterFeatures assigned cid)
    ∧ clusterTotal assigned cid
        = (((clusterFeatures assigned cid).filter
            (fun f => (toNumber f.volume).isSome)).map numOrZero).sum := by
  refine ⟨rfl, ?_, ?_, ?_⟩
  · simp [nbPorts, clusterFeatures]
  · intro p hp hcid
    exact List.mem_map.mpr ⟨p, List.mem_filter.mpr ⟨hp, by simp [hcid]⟩, rfl⟩
  · have h1 : clusterTotal assigned cid
        = ((clusterFeatures assigned cid).map numOrZero).sum := by
      simp [clusterTotal, clusterFeatures, List.map_map]
      rfl
    rw [h1, sum_numOrZero_eq_parseable]
    rfl

/-- C8: Both render passes clear the symbol layer and the flow-line layer
unconditionally before drawing, so rendering twice with identical inputs
yields exactly the layers of a single render — the same symbol and line
counts — whatever the layers previously held. -/
theorem render_idempotent (minLog maxLog maxValue : ℝ)
    (ouidahLatLng : ℚ × ℚ) (portsFeatures : List Feature)
    (centroidOf : List Feature → ℚ × ℚ) (assigned : List (Feature × ℕ))
    (prev : Layers) :
    drawDetailed minLog maxLog maxValue ouidahLatLng portsFeatures
        (drawDetailed minLog maxLog maxValue ouidahLatLng portsFeatures prev)
      = drawDetailed minLog maxLog maxValue ouidahLatLng portsFeatures prev
    ∧ drawClustered minLog maxLog maxValue ouidahLatLng centroidOf assigned
        (drawClustered minLog maxLog maxValue ouidahLatLng centroidOf
          assigned prev)
      = drawClustered minLog maxLog maxValue ouidahLatLng centroidOf
          assigned prev
    ∧ (drawDetailed minLog maxLog maxValue ouidahLatLng portsFeatures
        (drawDetailed minLog maxLog maxValue ouidahLatLng portsFeatures
          prev)).ports.length
      = (drawDetailed minLog maxLog maxValue ouidahLatLng portsFeatures
          prev).ports.length
    ∧ (drawDetailed minLog maxLog maxValue ouidahLatLng portsFeatures
        (drawDetailed minLog maxLog maxValue ouidahLatLng portsFeatures
          prev)).flows.length
      = (drawDetailed minLog maxLog maxValue ouidahLatLng portsFeatures
          prev).flows.length
    ∧ (drawClustered minLog maxLog maxValue ouidahLatLng centroidOf assigned
        (drawClustered minLog maxLog maxValue ouidahLatLng centroidOf
          assigned prev)).ports.length
      = (drawClustered minLog maxLog maxValue ouidahLatLng centroidOf
          assigned prev).ports.length
    ∧ (drawClustered minLog maxLog maxValue ouidahLatLng centroidOf assigned
        (drawClustered minLog maxLog maxValue ouidahLatLng centroidOf
          assigned prev)).flows.length
      = (drawClustered minLog maxLog maxValue ouidahLatLng centroidOf
          assigned prev).flows.length :=
  ⟨rfl, rfl, rfl, rfl, rfl, rfl⟩

/-- C9: In detailed mode a record whose volume coerces to 0 under Number
(null, the empty string, or the literal 0) is rendered — one symbol of the
minimum radius 4 and one line of width 1 — while a record whose volume
coerces to NaN (missing key or non-numeric text) is skipped entirely, so
"missing volume" and "excluded from rendering" differ at the interface. -/
theorem drawDetailed_zero_volume (minLog maxLog maxValue : ℝ)
    (ouidahLatLng : ℚ × ℚ) (lon lat : ℚ) (nm : Option String)
    (vzero vnan : VolProp) (prev : Layers)
    (hz : toNumber vzero = some 0) (hn : toNumber vnan = none) :
    drawDetailed minLog maxLog maxValue ouidahLatLng
        [⟨some (.point lon lat), vzero, nm⟩] prev
      = ⟨[⟨(lat, lon), 4⟩], [⟨ouidahLatLng, (lat, lon), .val 1⟩]⟩
    ∧ drawDetailed minLog maxLog maxValue ouidahLatLng
        [⟨some (.point lon lat), vnan, nm⟩] prev
      = ⟨[], []⟩ := by
  constructor
  · simp only [drawDetailed, List.foldl_cons, List.foldl_nil, clearLayers, hz]
    simp [createSizeScale, lineWidthFromTotal]
  · simp only [drawDetailed, List.foldl_cons, List.foldl_nil, clearLayers, hn]

/-- Witness for C9: the concrete volumes `null` (coerces to 0, rendered at
radius 4 and width 1) and a missing key (coerces to NaN, skipped). -/
theorem drawDetailed_zero_volume_witness :
    toNumber VolProp.null = some 0 ∧ toNumber VolProp.missing = none
    ∧ (drawDetailed 0 0 0 (0, 0) [⟨some (.point 0 0), VolProp.null, none⟩]
          ⟨[], []⟩
        = ⟨[⟨(0, 0), 4⟩], [⟨(0, 0), (0, 0), .val 1⟩]⟩
      ∧ drawDetailed 0 0 0 (0, 0)
          [⟨some (.point 0 0), VolProp.missing, none⟩] ⟨[], []⟩
        = ⟨[], []⟩) :=
  ⟨rfl, rfl,
    drawDetailed_zero_volume 0 0 0 (0, 0) 0 0 none VolProp.null
      VolProp.missing ⟨[], []⟩ rfl rfl⟩

end CarteAnimee
